import Mathlib

/-!
# Disk-manager client layer: operation waiting and cross-zone clone

A shallow embedding of

* `cloud/disk_manager/internal/pkg/client/client.go`:
  `WaitOperation`, `WaitResponse`, `privateClient.WaitOperation`;
* `cloud/disk_manager/internal/pkg/clients/nbs/multi_zone_client.go`:
  `multiZoneClient.Clone`, `multiZoneClient.clone`.

Remote collaborators (the operation service, the two zone clients) are
reply oracles: the reply to a call may depend on the arguments of the call
and on how many rounds of the calling loop came before it.  The calls a run
issues are returned next to its result, in the order they were issued.
-/

namespace DiskManager

/-! ## Data model -/

/-- The `google.rpc.Status` message of an operation's error variant (its
`details` carry no weight here and are left out). -/
structure Status where
  Code : Int
  Message : String
  deriving DecidableEq, Repr

/-- The `any.Any` payload of an operation's response variant. -/
structure Any where
  TypeUrl : String
  Value : List Nat
  deriving DecidableEq, Repr

/-- The `isOperation_Result` variants `*operation.Operation_Error` and
`*operation.Operation_Response`; their one field is a pointer and may be nil. -/
inductive OperationResult where
  | Operation_Error (status : Option Status)
  | Operation_Response (response : Option Any)
  deriving DecidableEq, Repr

/-- The `operation.Operation` message: identity, completion flag and the `Result`
interface value (`none` is the nil interface). -/
structure Operation where
  Id : String
  Done : Bool
  Result : Option OperationResult
  deriving DecidableEq, Repr

/-- An operand of a `%v` verb in an error format string. -/
inductive FormatArg where
  | str (s : String)
  | op (o : Operation)
  | result (r : Option OperationResult)
  deriving DecidableEq, Repr

/-- Modelled from the spec: the `error` values this code handles; package
`tasks/errors` and the client libraries are not among the sources.  Following the
taxonomy of section 7, a retriable or non-retriable error is a wrapper around the
error it was built from.

* `plain`: an error of a library or a remote call that carries no retry class;
* `errorf`: `fmt.Errorf format args`;
* `client`: an `nbs_client.ClientError` with its code and message;
* `status`: the error `grpc_status` builds for a non-OK `Status`;
* `nonRetriable`, `retriable`: the wrappers of the `tasks/errors` package. -/
inductive Error where
  | plain (msg : String)
  | errorf (format : String) (args : List FormatArg)
  | client (code : Nat) (message : String)
  | status (code : Int) (message : String)
  | nonRetriable (err : Error)
  | retriable (err : Error)
  deriving DecidableEq, Repr

/-- Modelled from the spec: constructor `errors.NewRetriableError` of package
`tasks/errors`, the retriable wrapper around an error. -/
def NewRetriableError (err : Error) : Error := Error.retriable err

/-- Modelled from the spec: constructor `errors.NewNonRetriableErrorf` of package
`tasks/errors`, the non-retriable wrapper around the formatted error. -/
def NewNonRetriableErrorf (format : String) (args : List FormatArg) : Error :=
  Error.nonRetriable (Error.errorf format args)

/-- Modelled from the spec: an error is of the non-retriable class of package
`tasks/errors` when it is a non-retriable wrapper. -/
def Error.isNonRetriable : Error → Bool
  | Error.nonRetriable _ => true
  | _ => false

/-- Modelled from the spec: an error is of the retriable class of package
`tasks/errors` when it is a retriable wrapper. -/
def Error.isRetriable : Error → Bool
  | Error.retriable _ => true
  | _ => false

/-! ## Cross-zone clone (`multi_zone_client.go`) -/

/-- The `EncryptionDesc` of a described volume. -/
structure EncryptionDesc where
  Mode : Nat
  KeyHash : List Nat
  deriving DecidableEq, Repr

/-- The volume description returned by `DescribeVolume`, with the fields `clone` and
`Clone` read. -/
structure Volume where
  DiskId : String
  BlocksCount : Nat
  BlockSize : Nat
  StorageMediaKind : Nat
  CloudId : String
  FolderId : String
  TabletVersion : Nat
  PlacementGroupId : String
  PlacementPartitionIndex : Nat
  PartitionsCount : Nat
  IsSystem : Bool
  ProjectId : String
  ChannelsCount : Nat
  EncryptionDesc : EncryptionDesc
  IsFillFinished : Bool
  deriving DecidableEq, Repr

/-- The `protos.TEncryptionSpec` built by `clone`, with its key-hash parameter. -/
structure EncryptionSpec where
  Mode : Nat
  KeyHash : List Nat
  deriving DecidableEq, Repr

/-- The `nbs_client.CreateVolumeOpts` built by `clone`. -/
structure CreateVolumeOpts where
  BaseDiskId : String
  BaseDiskCheckpointId : String
  BlockSize : Nat
  StorageMediaKind : Nat
  CloudId : String
  FolderId : String
  TabletVersion : Nat
  PlacementGroupId : String
  PlacementPartitionIndex : Nat
  PartitionsCount : Nat
  IsSystem : Bool
  ProjectId : String
  ChannelsCount : Nat
  EncryptionSpec : EncryptionSpec
  StoragePoolName : String
  AgentIds : List String
  FillGeneration : Nat
  deriving DecidableEq, Repr

/-- The declarations of package `nbs` that `Clone` uses and that live outside
`multi_zone_client.go`: the constant `maxConsecutiveRetries`, the classifier
`isAbortedError` and `wrapError` (applied to non-nil errors; a nil error stays
nil). -/
structure Package where
  maxConsecutiveRetries : Nat
  isAbortedError : Error → Bool
  wrapError : Error → Error

/-- The receiver of `Clone`: the remote calls it can make through its source and
destination zone clients.  The first argument of each is the number of loop rounds
of `Clone` completed before the call (`retries`), so a reply may depend on when the
call is made as well as on its arguments. -/
structure multiZoneClient where
  srcDescribeVolume : Nat → String → Except Error Volume
  dstCreateVolume : Nat → String → Nat → CreateVolumeOpts → Option Error
  dstDescribeVolume : Nat → String → Except Error Volume
  dstDeleteWithFillGeneration : Nat → String → Nat → Option Error

/-- What a run of `Clone` does, in order: its remote calls with their arguments, and
the return of each `c.clone` attempt with the error it returned. -/
inductive Event where
  | srcDescribeVolume (diskID : String)
  | dstCreateVolume (diskID : String) (blocksCount : Nat) (opts : CreateVolumeOpts)
  | cloneReturned (err : Option Error)
  | dstDescribeVolume (diskID : String)
  | dstDeleteWithFillGeneration (diskID : String) (expectedGeneration : Nat)
  deriving DecidableEq, Repr

/-- The event is a destination `CreateVolume` call. -/
def Event.isCreate : Event → Bool
  | Event.dstCreateVolume _ _ _ => true
  | _ => false

/-- The event is the return of a `c.clone` attempt. -/
def Event.isAttempt : Event → Bool
  | Event.cloneReturned _ => true
  | _ => false

/-- The event is a destination `DescribeVolume` call. -/
def Event.isDstDescribe : Event → Bool
  | Event.dstDescribeVolume _ => true
  | _ => false

/-- The event is a destination `DeleteWithFillGeneration` call. -/
def Event.isDelete : Event → Bool
  | Event.dstDeleteWithFillGeneration _ _ => true
  | _ => false

/-- The options `clone` passes to `CreateVolume` for a described source volume. -/
def createVolumeOpts (volume : Volume) (fillGeneration : Nat) : CreateVolumeOpts where
  BaseDiskId := ""
  BaseDiskCheckpointId := ""
  BlockSize := volume.BlockSize
  StorageMediaKind := volume.StorageMediaKind
  CloudId := volume.CloudId
  FolderId := volume.FolderId
  TabletVersion := volume.TabletVersion
  PlacementGroupId := volume.PlacementGroupId
  PlacementPartitionIndex := volume.PlacementPartitionIndex
  PartitionsCount := volume.PartitionsCount
  IsSystem := volume.IsSystem
  ProjectId := volume.ProjectId
  ChannelsCount := volume.ChannelsCount
  EncryptionSpec := ⟨volume.EncryptionDesc.Mode, volume.EncryptionDesc.KeyHash⟩
  StoragePoolName := ""
  AgentIds := []
  FillGeneration := fillGeneration

/-- Method `multiZoneClient.clone`: describe the source volume, then create the
destination volume with the given fill generation.  Returns the error and the calls
made. -/
def multiZoneClient.clone (P : Package) (c : multiZoneClient) (retries : Nat)
    (diskID : String) (fillGeneration : Nat) : Option Error × List Event :=
  match c.srcDescribeVolume retries diskID with
  | Except.error err => (some (P.wrapError err), [Event.srcDescribeVolume diskID])
  | Except.ok volume =>
    ((c.dstCreateVolume retries volume.DiskId volume.BlocksCount
        (createVolumeOpts volume fillGeneration)).map P.wrapError,
      [Event.srcDescribeVolume diskID,
       Event.dstCreateVolume volume.DiskId volume.BlocksCount
        (createVolumeOpts volume fillGeneration)])

/-- The block of `Clone` guarded by `fillGeneration > 1` (lines 37 to 58): describe
the destination, refuse when its filling is finished, else delete it expecting the
previous generation.  `some err` is a `return err` out of `Clone`; `none` falls
through to the retry counter.  `fillGeneration-1` is `uint64` subtraction. -/
def multiZoneClient.cleanup (P : Package) (c : multiZoneClient) (retries : Nat)
    (diskID : String) (fillGeneration : Nat) : Option Error × List Event :=
  if fillGeneration > 1 then
    match c.dstDescribeVolume retries diskID with
    | Except.error err => (some (P.wrapError err), [Event.dstDescribeVolume diskID])
    | Except.ok volume =>
      if volume.IsFillFinished then
        (some (NewNonRetriableErrorf "can't replace disk %v because filling is finished"
            [FormatArg.str diskID]),
          [Event.dstDescribeVolume diskID])
      else
        (c.dstDeleteWithFillGeneration retries diskID
            ((fillGeneration + 2 ^ 64 - 1) % 2 ^ 64),
          [Event.dstDescribeVolume diskID,
           Event.dstDeleteWithFillGeneration diskID
            ((fillGeneration + 2 ^ 64 - 1) % 2 ^ 64)])
  else (none, [])

/-- The `for` loop of `Clone`, entered with the given value of `retries`; `fuel`
bounds the number of rounds, and `none` means the fuel ran out before `Clone`
returned. -/
def multiZoneClient.CloneLoop (P : Package) (c : multiZoneClient) (diskID : String)
    (fillGeneration : Nat) : Nat → Nat → Option (Option Error × List Event)
  | 0, _ => none
  | fuel + 1, retries =>
    match (c.clone P retries diskID fillGeneration).1 with
    | none =>
      some (none, (c.clone P retries diskID fillGeneration).2 ++ [Event.cloneReturned none])
    | some err =>
      if P.isAbortedError err = false then
        some (some err,
          (c.clone P retries diskID fillGeneration).2 ++ [Event.cloneReturned (some err)])
      else
        match (c.cleanup P retries diskID fillGeneration).1 with
        | some ret =>
          some (some ret,
            (c.clone P retries diskID fillGeneration).2 ++ Event.cloneReturned (some err) ::
              (c.cleanup P retries diskID fillGeneration).2)
        | none =>
          if retries = P.maxConsecutiveRetries then
            some (some (NewRetriableError err),
              (c.clone P retries diskID fillGeneration).2 ++ Event.cloneReturned (some err) ::
                (c.cleanup P retries diskID fillGeneration).2)
          else
            (multiZoneClient.CloneLoop P c diskID fillGeneration fuel (retries + 1)).map
              (fun r => (r.1,
                (c.clone P retries diskID fillGeneration).2 ++ Event.cloneReturned (some err) ::
                  ((c.cleanup P retries diskID fillGeneration).2 ++ r.2)))

/-- Method `multiZoneClient.Clone`: the loop started with `retries := 0`, given
fuel for `maxConsecutiveRetries + 1` rounds (`CloneLoop_fuel` shows that no run needs
more and that more fuel changes nothing).  The deferred `StatRequest` call reads
the returned error for the metrics and is left out. -/
def multiZoneClient.Clone (P : Package) (c : multiZoneClient) (diskID : String)
    (fillGeneration : Nat) : Option (Option Error × List Event) :=
  multiZoneClient.CloneLoop P c diskID fillGeneration (P.maxConsecutiveRetries + 1) 0

/-- The clone attempt of round `i` comes back aborted: `clone` returns an error, from
the source describe or from the create, that `isAbortedError` classes as aborted. -/
def multiZoneClient.attemptAborts (P : Package) (c : multiZoneClient) (diskID : String)
    (fillGeneration : Nat) (i : Nat) : Bool :=
  match (c.clone P i diskID fillGeneration).1 with
  | none => false
  | some err => P.isAbortedError err

/-- The source describe of round `i` succeeds, so that the attempt of that round goes
on to the destination create. -/
def multiZoneClient.srcDescribes (c : multiZoneClient) (diskID : String) (i : Nat) : Bool :=
  match c.srcDescribeVolume i diskID with
  | Except.error _ => false
  | Except.ok _ => true

/-- The destination describe of round `i` succeeds and reports the given value of
`IsFillFinished`. -/
def multiZoneClient.dstReports (c : multiZoneClient) (diskID : String) (i : Nat)
    (finished : Bool) : Bool :=
  match c.dstDescribeVolume i diskID with
  | Except.error _ => false
  | Except.ok volume => volume.IsFillFinished == finished

/-! ## Waiting for operations (`client.go`) -/

/-- Function `ErrorProto` of the library package `google.golang.org/grpc/status`, by
its documentation: "ErrorProto returns an error representing s.  If s.Code is OK,
returns nil."  A nil message has code OK (0). -/
def ErrorProto : Option Status → Option Error
  | none => none
  | some s => if s.Code = 0 then none else some (Error.status s.Code s.Message)

/-- The observer passed to `WaitOperation`: called with the number of polls made
before and the snapshot just fetched. -/
abbrev Callback := Nat → Operation → Option Error

/-- Interface `WaitableClient`. -/
structure WaitableClient where
  WaitOperation : String → Callback → Except Error Operation

/-- Function `WaitResponse`.  `M` is the type of the decode target, `UnmarshalAny`
is `ptypes.UnmarshalAny` (it returns its error and the target as it left it), and
`response` is the target (`none` is a nil `proto.Message`).  Returns the error and
the target. -/
def WaitResponse (M : Type) (UnmarshalAny : Option Any → M → Option Error × M)
    (client : WaitableClient) (operationID : String) (response : Option M) :
    Option Error × Option M :=
  match client.WaitOperation operationID (fun _ _ => none) with
  | Except.error err => (some err, response)
  | Except.ok o =>
    if o.Done = false then
      (some (NewNonRetriableErrorf "operation %v should be finished" [FormatArg.op o]),
        response)
    else
      match o.Result with
      | some (OperationResult.Operation_Error status) => (ErrorProto status, response)
      | some (OperationResult.Operation_Response payload) =>
        match response with
        | some target => ((UnmarshalAny payload target).1, some (UnmarshalAny payload target).2)
        | none => (none, none)
      | none =>
        (some (NewNonRetriableErrorf "unknown operation result type %v"
            [FormatArg.result none]),
          response)

/-- Function `WaitOperation`: `WaitResponse` with a nil decode target. -/
def WaitOperation (client : WaitableClient) (operationID : String) : Option Error :=
  (WaitResponse Unit (fun _ t => (none, t)) client operationID none).1

/-- The collaborators of `privateClient.WaitOperation`: `Get n id` is the reply of
the operation service to poll number `n`, and `ctxDone n` tells how the `select`
after poll `n` ends: `some err` when the context is done first (`err` is
`ctx.Err()`), `none` when the poll period elapses first. -/
structure privateClient where
  Get : Nat → String → Except Error Operation
  ctxDone : Nat → Option Error

/-- Method `privateClient.WaitOperation`, entered at poll number `n`.  `fuel` bounds
the number of polls; the first component is `none` when the fuel ran out with the
loop still polling.  The second component lists the replies fetched, in order. -/
def privateClient.WaitOperation (c : privateClient) (operationID : String)
    (callback : Option Callback) :
    Nat → Nat → Option (Except Error Operation) × List (Except Error Operation)
  | 0, _ => (none, [])
  | fuel + 1, n =>
    match c.Get n operationID with
    | Except.error err => (some (Except.error err), [Except.error err])
    | Except.ok o =>
      match callback.bind (fun cb => cb n o) with
      | some err => (some (Except.error err), [Except.ok o])
      | none =>
        if o.Done then (some (Except.ok o), [Except.ok o])
        else
          match c.ctxDone n with
          | some err => (some (Except.error err), [Except.ok o])
          | none =>
            ((privateClient.WaitOperation c operationID callback fuel (n + 1)).1,
              Except.ok o ::
                (privateClient.WaitOperation c operationID callback fuel (n + 1)).2)

/-- How a run of `privateClient.WaitOperation` that returned `res` after poll `k`
came to return, with the exits the loop has:
a terminal snapshot, a failed fetch, an observer error, a cancellation. -/
inductive WaitExit (c : privateClient) (operationID : String) (callback : Option Callback)
    (k : Nat) : Except Error Operation → Prop where
  | done (o : Operation) (hget : c.Get k operationID = Except.ok o)
      (hcb : callback.bind (fun cb => cb k o) = none) (hdone : o.Done = true) :
      WaitExit c operationID callback k (Except.ok o)
  | fetchError (err : Error) (hget : c.Get k operationID = Except.error err) :
      WaitExit c operationID callback k (Except.error err)
  | observerError (o : Operation) (err : Error) (hget : c.Get k operationID = Except.ok o)
      (hcb : callback.bind (fun cb => cb k o) = some err) :
      WaitExit c operationID callback k (Except.error err)
  | cancelled (o : Operation) (err : Error) (hget : c.Get k operationID = Except.ok o)
      (hcb : callback.bind (fun cb => cb k o) = none) (hdone : o.Done = false)
      (hctx : c.ctxDone k = some err) :
      WaitExit c operationID callback k (Except.error err)

/-! ## Sample collaborators, for evaluating the definitions -/

/-- A sample of the package declarations: three retries, client errors with code 1
are the aborted class, `wrapError` returns its argument. -/
def samplePackage : Package := ⟨3, fun e => e == Error.client 1 "aborted", fun e => e⟩

/-- A sample source volume. -/
def sampleVolume (finished : Bool) : Volume :=
  ⟨"d1", 100, 4096, 1, "cloud", "folder", 1, "", 0, 1, false, "project", 4, ⟨0, []⟩, finished⟩

/-- A sample pair of zones: the source describes `sampleVolume`, the destination
create aborts in the rounds before `aborts` and then succeeds, the destination
describe reports `finished`, deletes succeed. -/
def sampleZones (aborts : Nat) (finished : Bool) : multiZoneClient where
  srcDescribeVolume := fun _ _ => Except.ok (sampleVolume false)
  dstCreateVolume := fun i _ _ _ => if i < aborts then some (Error.client 1 "aborted") else none
  dstDescribeVolume := fun _ _ => Except.ok (sampleVolume finished)
  dstDeleteWithFillGeneration := fun _ _ _ => none

/-- A sample pair of zones whose destination enforces the expected generation: a
delete succeeds when it expects generation 2 and fails otherwise.  The source
describe aborts in the rounds before `srcAborts`, the destination create aborts in
the rounds before `aborts`, and the destination describe reports a finished fill
from round `finishedFrom` on. -/
def fencedZones (srcAborts aborts finishedFrom : Nat) : multiZoneClient where
  srcDescribeVolume := fun i _ =>
    if i < srcAborts then Except.error (Error.client 1 "aborted")
    else Except.ok (sampleVolume false)
  dstCreateVolume := fun i _ _ _ => if i < aborts then some (Error.client 1 "aborted") else none
  dstDescribeVolume := fun i _ => Except.ok (sampleVolume (decide (finishedFrom ≤ i)))
  dstDeleteWithFillGeneration := fun _ _ gen =>
    if gen = 2 then none else some (Error.client 3 "generation mismatch")

/-- A sample pair of zones whose destination rejects every create with an error that
is not of the aborted class. -/
def rejectingZones : multiZoneClient where
  srcDescribeVolume := fun _ _ => Except.ok (sampleVolume false)
  dstCreateVolume := fun _ _ _ _ => some (Error.client 2 "rejected")
  dstDescribeVolume := fun _ _ => Except.ok (sampleVolume false)
  dstDeleteWithFillGeneration := fun _ _ _ => none

/-- A sample `WaitableClient`: its wait returns the given snapshot. -/
def sampleWaitable (o : Operation) : WaitableClient := ⟨fun _ _ => Except.ok o⟩

/-- A sample decoder in the manner of `ptypes.UnmarshalAny`, for targets identified
by their type URL: a nil payload or one of another type is an error. -/
def sampleUnmarshalAny : Option Any → String → Option Error × String
  | none, target => (some (Error.plain "message is nil"), target)
  | some payload, target =>
    if payload.TypeUrl = target then (none, target)
    else
      (some (Error.errorf "mismatched message type: got %q want %q"
        [FormatArg.str payload.TypeUrl, FormatArg.str target]), target)

/-- A sample snapshot of a running operation. -/
def runningOperation : Operation := ⟨"op", false, none⟩

/-- A sample snapshot of an operation that is done, with an empty response. -/
def doneOperation : Operation :=
  ⟨"op", true, some (OperationResult.Operation_Response none)⟩

/-- A sample operation service: the operation is running at poll 0 and done from
poll 1 on; the context is never done. -/
def samplePrivateClient : privateClient where
  Get := fun n _ => if n = 0 then Except.ok runningOperation else Except.ok doneOperation
  ctxDone := fun _ => none

/-- A sample operation service that is unavailable: every fetch fails; the context is
never done. -/
def unavailablePrivateClient : privateClient where
  Get := fun _ _ => Except.error (Error.status 14 "unavailable")
  ctxDone := fun _ => none

/-! ## Lemmas about the clone loop -/

/-- The calls of one `clone` attempt: the source describe, then at most one create. -/
theorem clone_events (P : Package) (c : multiZoneClient) (i : Nat) (diskID : String)
    (g : Nat) :
    (c.clone P i diskID g).2 = [Event.srcDescribeVolume diskID] ∨
      ∃ v : Volume, (c.clone P i diskID g).2 =
        [Event.srcDescribeVolume diskID,
         Event.dstCreateVolume v.DiskId v.BlocksCount (createVolumeOpts v g)] := by
  unfold multiZoneClient.clone
  split
  · exact Or.inl rfl
  · rename_i v _
    exact Or.inr ⟨v, rfl⟩

/-- The calls of one cleanup: none when the generation is at most 1, else the
destination describe, followed by the delete when the cleanup got that far. -/
theorem cleanup_events (P : Package) (c : multiZoneClient) (i : Nat) (diskID : String)
    (g : Nat) :
    ((c.cleanup P i diskID g).2 = [] ∧ (g ≤ 1 → (c.cleanup P i diskID g).1 = none)) ∨
      (1 < g ∧ (c.cleanup P i diskID g).2 = [Event.dstDescribeVolume diskID] ∧
        (c.cleanup P i diskID g).1 ≠ none) ∨
      (1 < g ∧ (c.cleanup P i diskID g).2 =
        [Event.dstDescribeVolume diskID,
         Event.dstDeleteWithFillGeneration diskID ((g + 2 ^ 64 - 1) % 2 ^ 64)]) := by
  unfold multiZoneClient.cleanup
  by_cases hg : g > 1
  · rw [if_pos hg]
    split
    · exact Or.inr (Or.inl ⟨hg, rfl, by simp⟩)
    · split
      · exact Or.inr (Or.inl ⟨hg, rfl, by simp⟩)
      · exact Or.inr (Or.inr ⟨hg, rfl⟩)
  · rw [if_neg hg]
    exact Or.inl ⟨rfl, fun _ => rfl⟩

/-- One round of the loop, spelled out. -/
theorem CloneLoop_succ (P : Package) (c : multiZoneClient) (diskID : String) (g : Nat)
    (fuel retries : Nat) :
    c.CloneLoop P diskID g (fuel + 1) retries =
      match (c.clone P retries diskID g).1 with
      | none => some (none, (c.clone P retries diskID g).2 ++ [Event.cloneReturned none])
      | some err =>
        if P.isAbortedError err = false then
          some (some err, (c.clone P retries diskID g).2 ++ [Event.cloneReturned (some err)])
        else
          match (c.cleanup P retries diskID g).1 with
          | some ret =>
            some (some ret,
              (c.clone P retries diskID g).2 ++ Event.cloneReturned (some err) ::
                (c.cleanup P retries diskID g).2)
          | none =>
            if retries = P.maxConsecutiveRetries then
              some (some (NewRetriableError err),
                (c.clone P retries diskID g).2 ++ Event.cloneReturned (some err) ::
                  (c.cleanup P retries diskID g).2)
            else
              (c.CloneLoop P diskID g fuel (retries + 1)).map
                (fun r => (r.1,
                  (c.clone P retries diskID g).2 ++ Event.cloneReturned (some err) ::
                    ((c.cleanup P retries diskID g).2 ++ r.2))) := rfl

/-- The loop returns within `maxConsecutiveRetries + 1 - retries` rounds. -/
theorem CloneLoop_returns (P : Package) (c : multiZoneClient) (diskID : String) (g : Nat) :
    ∀ fuel retries, retries ≤ P.maxConsecutiveRetries →
      P.maxConsecutiveRetries + 1 ≤ fuel + retries →
      ∃ r, c.CloneLoop P diskID g fuel retries = some r := by
  intro fuel
  induction fuel with
  | zero => intro retries h1 h2; omega
  | succ n ih =>
    intro retries h1 h2
    rw [CloneLoop_succ]
    split
    · exact ⟨_, rfl⟩
    · split
      · exact ⟨_, rfl⟩
      · split
        · exact ⟨_, rfl⟩
        · split
          · exact ⟨_, rfl⟩
          · rename_i hne
            obtain ⟨r, hr⟩ := ih (retries + 1) (by omega) (by omega)
            rw [hr]
            exact ⟨_, rfl⟩

/-- More fuel does not change what the loop returns. -/
theorem CloneLoop_mono (P : Package) (c : multiZoneClient) (diskID : String) (g : Nat) :
    ∀ fuel retries r, c.CloneLoop P diskID g fuel retries = some r →
      ∀ extra, c.CloneLoop P diskID g (fuel + extra) retries = some r := by
  intro fuel
  induction fuel with
  | zero => intro retries r h; simp [multiZoneClient.CloneLoop] at h
  | succ n ih =>
    intro retries r h extra
    have e : n + 1 + extra = (n + extra) + 1 := by omega
    rw [e, CloneLoop_succ]
    rw [CloneLoop_succ] at h
    cases h1 : (c.clone P retries diskID g).1 with
    | none => simp only [h1] at h ⊢; exact h
    | some err =>
      simp only [h1] at h ⊢
      by_cases h2 : P.isAbortedError err = false
      · rw [if_pos h2] at h ⊢; exact h
      · rw [if_neg h2] at h ⊢
        cases h3 : (c.cleanup P retries diskID g).1 with
        | some ret => simp only [h3] at h ⊢; exact h
        | none =>
          simp only [h3] at h ⊢
          by_cases h4 : retries = P.maxConsecutiveRetries
          · rw [if_pos h4] at h ⊢; exact h
          · rw [if_neg h4] at h ⊢
            cases hrec : c.CloneLoop P diskID g n (retries + 1) with
            | none => rw [hrec] at h; simp at h
            | some r1 =>
              rw [hrec] at h
              rw [ih (retries + 1) r1 hrec extra]
              exact h

/-- Statement `Clone` always returns, and any fuel of at least
`maxConsecutiveRetries + 1` rounds gives the same result. -/
theorem CloneLoop_fuel (P : Package) (c : multiZoneClient) (diskID : String) (g : Nat) :
    ∃ r, c.Clone P diskID g = some r ∧
      ∀ fuel, P.maxConsecutiveRetries + 1 ≤ fuel → c.CloneLoop P diskID g fuel 0 = some r := by
  obtain ⟨r, hr⟩ := CloneLoop_returns P c diskID g (P.maxConsecutiveRetries + 1) 0
    (Nat.zero_le _) (by omega)
  refine ⟨r, hr, ?_⟩
  intro fuel hf
  have := CloneLoop_mono P c diskID g _ _ r hr (fuel - (P.maxConsecutiveRetries + 1))
  rwa [Nat.add_sub_cancel' hf] at this

/-- Induction over the rounds of a run of the loop that returned: a property of
(`retries`, result) holds of the run when it holds at each of the four ways a round
can return and is carried over a round that loops back. -/
theorem CloneLoop_induct (P : Package) (c : multiZoneClient) (diskID : String) (g : Nat)
    (motive : Nat → Option Error × List Event → Prop)
    (success : ∀ retries, (c.clone P retries diskID g).1 = none →
      motive retries (none, (c.clone P retries diskID g).2 ++ [Event.cloneReturned none]))
    (permanent : ∀ retries err, (c.clone P retries diskID g).1 = some err →
      P.isAbortedError err = false →
      motive retries
        (some err, (c.clone P retries diskID g).2 ++ [Event.cloneReturned (some err)]))
    (cleanupExit : ∀ retries err ret, (c.clone P retries diskID g).1 = some err →
      P.isAbortedError err = true → (c.cleanup P retries diskID g).1 = some ret →
      motive retries
        (some ret, (c.clone P retries diskID g).2 ++ Event.cloneReturned (some err) ::
          (c.cleanup P retries diskID g).2))
    (exhausted : ∀ retries err, (c.clone P retries diskID g).1 = some err →
      P.isAbortedError err = true → (c.cleanup P retries diskID g).1 = none →
      retries = P.maxConsecutiveRetries →
      motive retries
        (some (NewRetriableError err),
          (c.clone P retries diskID g).2 ++ Event.cloneReturned (some err) ::
            (c.cleanup P retries diskID g).2))
    (again : ∀ retries err r, (c.clone P retries diskID g).1 = some err →
      P.isAbortedError err = true → (c.cleanup P retries diskID g).1 = none →
      retries ≠ P.maxConsecutiveRetries → motive (retries + 1) r →
      motive retries
        (r.1, (c.clone P retries diskID g).2 ++ Event.cloneReturned (some err) ::
          ((c.cleanup P retries diskID g).2 ++ r.2))) :
    ∀ fuel retries r, c.CloneLoop P diskID g fuel retries = some r → motive retries r := by
  intro fuel
  induction fuel with
  | zero => intro retries r h; simp [multiZoneClient.CloneLoop] at h
  | succ n ih =>
    intro retries r h
    rw [CloneLoop_succ] at h
    cases h1 : (c.clone P retries diskID g).1 with
    | none =>
      simp only [h1, Option.some.injEq] at h
      rw [← h]
      exact success retries h1
    | some err =>
      simp only [h1] at h
      by_cases h2 : P.isAbortedError err = false
      · rw [if_pos h2, Option.some.injEq] at h
        rw [← h]
        exact permanent retries err h1 h2
      · rw [if_neg h2] at h
        have h2t : P.isAbortedError err = true := by simpa using h2
        cases h3 : (c.cleanup P retries diskID g).1 with
        | some ret =>
          simp only [h3, Option.some.injEq] at h
          rw [← h]
          exact cleanupExit retries err ret h1 h2t h3
        | none =>
          simp only [h3] at h
          by_cases h4 : retries = P.maxConsecutiveRetries
          · rw [if_pos h4, Option.some.injEq] at h
            rw [← h]
            exact exhausted retries err h1 h2t h3 h4
          · rw [if_neg h4] at h
            cases hrec : c.CloneLoop P diskID g n (retries + 1) with
            | none => rw [hrec] at h; simp at h
            | some r1 =>
              rw [hrec, Option.map_some', Option.some.injEq] at h
              rw [← h]
              exact again retries err r1 h1 h2t h3 h4 (ih (retries + 1) r1 hrec)

/-- A property of events that holds of every call of `clone` and of `cleanup` and of
every attempt return holds of every event of a run. -/
theorem CloneLoop_forall_events (P : Package) (c : multiZoneClient) (diskID : String)
    (g : Nat) (Q : Event → Prop)
    (hclone : ∀ i, ∀ ev ∈ (c.clone P i diskID g).2, Q ev)
    (hret : ∀ err, Q (Event.cloneReturned err))
    (hcleanup : ∀ i, ∀ ev ∈ (c.cleanup P i diskID g).2, Q ev) :
    ∀ fuel retries r, c.CloneLoop P diskID g fuel retries = some r → ∀ ev ∈ r.2, Q ev := by
  apply CloneLoop_induct P c diskID g (fun _ r => ∀ ev ∈ r.2, Q ev)
  · intro retries _ ev hev
    simp only [List.mem_append, List.mem_singleton] at hev
    rcases hev with hev | hev
    · exact hclone retries ev hev
    · rw [hev]; exact hret _
  · intro retries err _ _ ev hev
    simp only [List.mem_append, List.mem_singleton] at hev
    rcases hev with hev | hev
    · exact hclone retries ev hev
    · rw [hev]; exact hret _
  · intro retries err ret _ _ _ ev hev
    simp only [List.mem_append, List.mem_cons] at hev
    rcases hev with hev | hev | hev
    · exact hclone retries ev hev
    · rw [hev]; exact hret _
    · exact hcleanup retries ev hev
  · intro retries err _ _ _ _ ev hev
    simp only [List.mem_append, List.mem_cons] at hev
    rcases hev with hev | hev | hev
    · exact hclone retries ev hev
    · rw [hev]; exact hret _
    · exact hcleanup retries ev hev
  · intro retries err r _ _ _ _ ih ev hev
    simp only [List.mem_append, List.mem_cons] at hev
    rcases hev with hev | hev | hev | hev
    · exact hclone retries ev hev
    · rw [hev]; exact hret _
    · exact hcleanup retries ev hev
    · exact ih ev hev

/-- No call of `clone` is a destination delete. -/
theorem clone_no_delete (P : Package) (c : multiZoneClient) (i : Nat) (diskID : String)
    (g : Nat) : ∀ ev ∈ (c.clone P i diskID g).2, ev.isDelete = false := by
  intro ev hev
  rcases clone_events P c i diskID g with h | ⟨v, h⟩ <;> rw [h] at hev <;>
    simp only [List.mem_cons, List.mem_singleton, List.not_mem_nil, or_false] at hev
  · rw [hev]; rfl
  · rcases hev with hev | hev <;> rw [hev] <;> rfl

/-! ## The claims about `Clone` -/

/-- C3: with `fillGeneration = 1`, whatever the remote services reply, `Clone` returns
and the calls it issued contain no destination delete. -/
theorem Clone_generation_one_never_deletes (P : Package) (c : multiZoneClient)
    (diskID : String) :
    ∃ r, c.Clone P diskID 1 = some r ∧ ∀ ev ∈ r.2, ev.isDelete = false := by
  obtain ⟨r, hr, _⟩ := CloneLoop_fuel P c diskID 1
  refine ⟨r, hr, ?_⟩
  refine CloneLoop_forall_events P c diskID 1 (fun ev => ev.isDelete = false)
    (clone_no_delete P c · diskID 1) (fun _ => rfl) ?_ _ _ r hr
  intro i ev hev
  rcases cleanup_events P c i diskID 1 with h | h | h
  · rw [h.1] at hev; simp at hev
  · omega
  · omega

/-- C4: for a `uint64` fill generation `g`, whatever the remote services reply, every
destination delete that `Clone` issues carries the disk id the caller passed and the
expected generation `gen` with `gen + 1 = g`, that is `g - 1` with no underflow. -/
theorem Clone_delete_expects_previous_generation (P : Package) (c : multiZoneClient)
    (diskID : String) (g : Nat) (hg : g < 2 ^ 64) :
    ∃ r, c.Clone P diskID g = some r ∧
      ∀ d gen, Event.dstDeleteWithFillGeneration d gen ∈ r.2 →
        d = diskID ∧ gen + 1 = g ∧ gen = g - 1 := by
  obtain ⟨r, hr, _⟩ := CloneLoop_fuel P c diskID g
  refine ⟨r, hr, ?_⟩
  have key := CloneLoop_forall_events P c diskID g
    (fun ev => ∀ d gen, ev = Event.dstDeleteWithFillGeneration d gen →
      d = diskID ∧ gen + 1 = g ∧ gen = g - 1) ?_ ?_ ?_ _ _ r hr
  · intro d gen hmem
    exact key _ hmem d gen rfl
  · intro i ev hev d gen hd
    have := clone_no_delete P c i diskID g ev hev
    rw [hd] at this
    simp [Event.isDelete] at this
  · intro err d gen hd
    simp at hd
  · intro i ev hev d gen hd
    rcases cleanup_events P c i diskID g with h | h | h
    · rw [h.1] at hev; simp at hev
    · rw [h.2.1, hd] at hev; simp at hev
    · rw [h.2, hd] at hev
      simp only [List.mem_cons, List.mem_singleton, List.not_mem_nil, or_false,
        Event.dstDeleteWithFillGeneration.injEq, false_or, reduceCtorEq] at hev
      obtain ⟨hd1, hd2⟩ := hev
      have h1 := h.1
      refine ⟨hd1, ?_, ?_⟩ <;> rw [hd2] <;> omega

/-- Witness for C4: generation 3 is a `uint64`, and the one delete of the sample run
expects generation 2. -/
theorem Clone_delete_expects_previous_generation_witness :
    (3 : Nat) < 2 ^ 64 ∧
      ∃ r, (sampleZones 1 false).Clone samplePackage "d1" 3 = some r ∧
        Event.dstDeleteWithFillGeneration "d1" 2 ∈ r.2 ∧
        ∀ d gen, Event.dstDeleteWithFillGeneration d gen ∈ r.2 →
          d = "d1" ∧ gen + 1 = 3 ∧ gen = 3 - 1 := by
  refine ⟨by decide, ?_⟩
  obtain ⟨r, hr, h⟩ :=
    Clone_delete_expects_previous_generation samplePackage (sampleZones 1 false) "d1" 3
      (by decide)
  refine ⟨r, hr, ?_, h⟩
  have e : (sampleZones 1 false).Clone samplePackage "d1" 3 = some (none,
      [Event.srcDescribeVolume "d1",
       Event.dstCreateVolume "d1" 100 (createVolumeOpts (sampleVolume false) 3),
       Event.cloneReturned (some (Error.client 1 "aborted")),
       Event.dstDescribeVolume "d1",
       Event.dstDeleteWithFillGeneration "d1" 2,
       Event.srcDescribeVolume "d1",
       Event.dstCreateVolume "d1" 100 (createVolumeOpts (sampleVolume false) 3),
       Event.cloneReturned none]) := by decide
  rw [e, Option.some.injEq] at hr
  rw [← hr]
  simp

/-- Counts over the calls of one `clone` attempt. -/
theorem clone_counts (P : Package) (c : multiZoneClient) (i : Nat) (diskID : String)
    (g : Nat) :
    (c.clone P i diskID g).2.countP Event.isAttempt = 0 ∧
      (c.clone P i diskID g).2.countP Event.isCreate ≤ 1 ∧
      (c.clone P i diskID g).2.countP Event.isDelete = 0 ∧
      (c.clone P i diskID g).2.countP Event.isDstDescribe = 0 := by
  rcases clone_events P c i diskID g with h | ⟨v, h⟩ <;> rw [h] <;>
    simp [List.countP_cons, Event.isAttempt, Event.isCreate, Event.isDelete,
      Event.isDstDescribe]

/-- Counts over the calls of one cleanup. -/
theorem cleanup_counts (P : Package) (c : multiZoneClient) (i : Nat) (diskID : String)
    (g : Nat) :
    (c.cleanup P i diskID g).2.countP Event.isAttempt = 0 ∧
      (c.cleanup P i diskID g).2.countP Event.isCreate = 0 ∧
      (c.cleanup P i diskID g).2.countP Event.isDelete ≤ 1 ∧
      (c.cleanup P i diskID g).2.countP Event.isDstDescribe ≤ 1 := by
  rcases cleanup_events P c i diskID g with h | h | h
  · rw [h.1]; simp
  · rw [h.2.1]
    simp [List.countP_cons, Event.isAttempt, Event.isCreate, Event.isDelete,
      Event.isDstDescribe]
  · rw [h.2]
    simp [List.countP_cons, Event.isAttempt, Event.isCreate, Event.isDelete,
      Event.isDstDescribe]

/-- A run entered with `retries` rounds behind it makes at most
`maxConsecutiveRetries + 1 - retries` attempts, creates and deletes. -/
theorem CloneLoop_counts (P : Package) (c : multiZoneClient) (diskID : String) (g : Nat) :
    ∀ fuel retries r, c.CloneLoop P diskID g fuel retries = some r →
      retries ≤ P.maxConsecutiveRetries →
      r.2.countP Event.isAttempt + retries ≤ P.maxConsecutiveRetries + 1 ∧
        r.2.countP Event.isCreate + retries ≤ P.maxConsecutiveRetries + 1 ∧
        r.2.countP Event.isDelete + retries ≤ P.maxConsecutiveRetries + 1 := by
  apply CloneLoop_induct P c diskID g (fun retries r =>
    retries ≤ P.maxConsecutiveRetries →
      r.2.countP Event.isAttempt + retries ≤ P.maxConsecutiveRetries + 1 ∧
        r.2.countP Event.isCreate + retries ≤ P.maxConsecutiveRetries + 1 ∧
        r.2.countP Event.isDelete + retries ≤ P.maxConsecutiveRetries + 1)
  · intro retries _ hle
    obtain ⟨a1, a2, a3, _⟩ := clone_counts P c retries diskID g
    simp only [List.countP_append, List.countP_cons, List.countP_nil, Event.isAttempt,
      Event.isCreate, Event.isDelete, a1, a3]
    simp
    omega
  · intro retries err _ _ hle
    obtain ⟨a1, a2, a3, _⟩ := clone_counts P c retries diskID g
    simp only [List.countP_append, List.countP_cons, List.countP_nil, Event.isAttempt,
      Event.isCreate, Event.isDelete, a1, a3]
    simp
    omega
  · intro retries err ret _ _ _ hle
    obtain ⟨a1, a2, a3, _⟩ := clone_counts P c retries diskID g
    obtain ⟨b1, b2, b3, _⟩ := cleanup_counts P c retries diskID g
    simp only [List.countP_append, List.countP_cons, Event.isAttempt,
      Event.isCreate, Event.isDelete, a1, a3, b1, b2]
    simp
    omega
  · intro retries err _ _ _ _ hle
    obtain ⟨a1, a2, a3, _⟩ := clone_counts P c retries diskID g
    obtain ⟨b1, b2, b3, _⟩ := cleanup_counts P c retries diskID g
    simp only [List.countP_append, List.countP_cons, Event.isAttempt,
      Event.isCreate, Event.isDelete, a1, a3, b1, b2]
    simp
    omega
  · intro retries err r _ _ _ hne ih hle
    obtain ⟨a1, a2, a3, _⟩ := clone_counts P c retries diskID g
    obtain ⟨b1, b2, b3, _⟩ := cleanup_counts P c retries diskID g
    obtain ⟨i1, i2, i3⟩ := ih (by omega)
    simp only [List.countP_append, List.countP_cons, Event.isAttempt,
      Event.isCreate, Event.isDelete, a1, a3, b1, b2]
    simp
    omega

/-- C10: whatever the disk id, the fill generation and the replies of the remote
services, `Clone` returns (with any fuel of at least `maxConsecutiveRetries + 1`
rounds, and the same result), having made at most `maxConsecutiveRetries + 1` clone
attempts, destination creates and destination deletes. -/
theorem Clone_terminates_within_retry_ceiling (P : Package) (c : multiZoneClient)
    (diskID : String) (g : Nat) :
    ∃ r, c.Clone P diskID g = some r ∧
      (∀ fuel, P.maxConsecutiveRetries + 1 ≤ fuel →
        c.CloneLoop P diskID g fuel 0 = some r) ∧
      r.2.countP Event.isAttempt ≤ P.maxConsecutiveRetries + 1 ∧
      r.2.countP Event.isCreate ≤ P.maxConsecutiveRetries + 1 ∧
      r.2.countP Event.isDelete ≤ P.maxConsecutiveRetries + 1 := by
  obtain ⟨r, hr, hfuel⟩ := CloneLoop_fuel P c diskID g
  have h := CloneLoop_counts P c diskID g _ _ r hr (Nat.zero_le _)
  exact ⟨r, hr, hfuel, by omega, by omega, by omega⟩

/-- A suffix that starts with an attempt return skips a prefix without attempt
returns. -/
theorem suffix_skip_calls (A rest post : List Event) (x : Option Error)
    (hA : A.countP Event.isAttempt = 0) :
    Event.cloneReturned x :: post <:+ A ++ rest → Event.cloneReturned x :: post <:+ rest := by
  induction A with
  | nil => intro h; simpa using h
  | cons a A ih =>
    intro h
    rw [List.cons_append, List.suffix_cons_iff] at h
    rw [List.countP_cons] at hA
    rcases h with h | h
    · rw [List.cons.injEq] at h
      rw [← h.1] at hA
      simp [Event.isAttempt] at hA
    · exact ih (by omega) h

/-- The property of C6 for the loop entered at any value of `retries`. -/
theorem CloneLoop_permanent (P : Package) (c : multiZoneClient) (diskID : String)
    (g : Nat) :
    ∀ fuel retries r, c.CloneLoop P diskID g fuel retries = some r →
      ∀ e post, P.isAbortedError e = false →
        Event.cloneReturned (some e) :: post <:+ r.2 → post = [] ∧ r.1 = some e := by
  apply CloneLoop_induct P c diskID g (fun _ r =>
    ∀ e post, P.isAbortedError e = false →
      Event.cloneReturned (some e) :: post <:+ r.2 → post = [] ∧ r.1 = some e)
  · intro retries _ e post _ hs
    have hs := suffix_skip_calls _ _ _ _ (clone_counts P c retries diskID g).1 hs
    simp [List.suffix_cons_iff] at hs
  · intro retries err _ _ e post _ hs
    have hs := suffix_skip_calls _ _ _ _ (clone_counts P c retries diskID g).1 hs
    simp [List.suffix_cons_iff] at hs
    exact ⟨hs.2, by rw [hs.1]⟩
  · intro retries err ret _ hab _ e post he hs
    have hs := suffix_skip_calls _ _ _ _ (clone_counts P c retries diskID g).1 hs
    rw [List.suffix_cons_iff] at hs
    rcases hs with hs | hs
    · simp only [List.cons.injEq, Event.cloneReturned.injEq, Option.some.injEq] at hs
      rw [hs.1, hab] at he
      exact absurd he (by simp)
    · rw [← List.append_nil (c.cleanup P retries diskID g).2] at hs
      have hs := suffix_skip_calls _ _ _ _ (cleanup_counts P c retries diskID g).1 hs
      simp at hs
  · intro retries err _ hab _ _ e post he hs
    have hs := suffix_skip_calls _ _ _ _ (clone_counts P c retries diskID g).1 hs
    rw [List.suffix_cons_iff] at hs
    rcases hs with hs | hs
    · simp only [List.cons.injEq, Event.cloneReturned.injEq, Option.some.injEq] at hs
      rw [hs.1, hab] at he
      exact absurd he (by simp)
    · rw [← List.append_nil (c.cleanup P retries diskID g).2] at hs
      have hs := suffix_skip_calls _ _ _ _ (cleanup_counts P c retries diskID g).1 hs
      simp at hs
  · intro retries err r _ hab _ _ ih e post he hs
    have hs := suffix_skip_calls _ _ _ _ (clone_counts P c retries diskID g).1 hs
    rw [List.suffix_cons_iff] at hs
    rcases hs with hs | hs
    · simp only [List.cons.injEq, Event.cloneReturned.injEq, Option.some.injEq] at hs
      rw [hs.1, hab] at he
      exact absurd he (by simp)
    · exact ih e post he
        (suffix_skip_calls _ _ _ _ (cleanup_counts P c retries diskID g).1 hs)

/-- C6: whatever the remote services reply, `Clone` returns, and if one of its clone
attempts returned an error `e` that is not of the aborted class, then that return is
the last event of the run (no create, destination describe or delete follows it) and
`Clone` returned `e` itself. -/
theorem Clone_returns_other_errors_at_once (P : Package) (c : multiZoneClient)
    (diskID : String) (g : Nat) :
    ∃ r, c.Clone P diskID g = some r ∧
      ∀ e post, P.isAbortedError e = false →
        Event.cloneReturned (some e) :: post <:+ r.2 → post = [] ∧ r.1 = some e := by
  obtain ⟨r, hr, _⟩ := CloneLoop_fuel P c diskID g
  exact ⟨r, hr, CloneLoop_permanent P c diskID g _ _ r hr⟩

/-- Witness for C6: the destination rejects the first create; `Clone` returns that
error and the attempt's return is the last event of the run. -/
theorem Clone_returns_other_errors_at_once_witness :
    ∃ r, rejectingZones.Clone samplePackage "d1" 3 = some r ∧
      [Event.cloneReturned (some (Error.client 2 "rejected"))] <:+ r.2 ∧
      r.1 = some (Error.client 2 "rejected") ∧ r.2.countP Event.isCreate = 1 := by
  obtain ⟨r, hr, h⟩ := Clone_returns_other_errors_at_once samplePackage rejectingZones "d1" 3
  have e : rejectingZones.Clone samplePackage "d1" 3 = some (some (Error.client 2 "rejected"),
      [Event.srcDescribeVolume "d1",
       Event.dstCreateVolume "d1" 100 (createVolumeOpts (sampleVolume false) 3),
       Event.cloneReturned (some (Error.client 2 "rejected"))]) := by decide
  rw [e, Option.some.injEq] at hr
  have hs : [Event.cloneReturned (some (Error.client 2 "rejected"))] <:+ r.2 := by
    rw [← hr]
    exact ⟨[Event.srcDescribeVolume "d1",
      Event.dstCreateVolume "d1" 100 (createVolumeOpts (sampleVolume false) 3)], rfl⟩
  refine ⟨r, by rw [e, hr], hs, (h _ [] (by decide) hs).2, ?_⟩
  rw [← hr]
  decide

/-- An attempt that comes back aborted: `clone` returned an error of the aborted
class. -/
theorem clone_of_attemptAborts (P : Package) (c : multiZoneClient) (diskID : String)
    (g i : Nat) (h : c.attemptAborts P diskID g i = true) :
    ∃ e, (c.clone P i diskID g).1 = some e ∧ P.isAbortedError e = true := by
  unfold multiZoneClient.attemptAborts at h
  cases hc : (c.clone P i diskID g).1 with
  | none => rw [hc] at h; simp at h
  | some e => rw [hc] at h; exact ⟨e, rfl, h⟩

/-- An attempt makes one create when its source describe succeeded, none otherwise. -/
theorem clone_creates (P : Package) (c : multiZoneClient) (diskID : String) (g i : Nat) :
    (c.clone P i diskID g).2.countP Event.isCreate =
      if c.srcDescribes diskID i = true then 1 else 0 := by
  unfold multiZoneClient.clone multiZoneClient.srcDescribes
  cases hs : c.srcDescribeVolume i diskID with
  | error err => simp [List.countP_cons, Event.isCreate]
  | ok v => simp [List.countP_cons, Event.isCreate]

/-- An attempt that succeeds had its source describe succeed. -/
theorem clone_success_described (P : Package) (c : multiZoneClient) (diskID : String)
    (g i : Nat) (h : (c.clone P i diskID g).1 = none) : c.srcDescribes diskID i = true := by
  unfold multiZoneClient.clone at h
  unfold multiZoneClient.srcDescribes
  cases hs : c.srcDescribeVolume i diskID with
  | error err => rw [hs] at h; simp at h
  | ok v => rfl

/-- A cleanup whose describe reports an unfinished fill and whose delete, issued with
the previous generation, succeeds falls through, after one describe and one
delete. -/
theorem cleanup_passes (P : Package) (c : multiZoneClient) (diskID : String) (g i : Nat)
    (hg : 1 < g) (hd : c.dstReports diskID i false = true)
    (hdel : c.dstDeleteWithFillGeneration i diskID ((g + 2 ^ 64 - 1) % 2 ^ 64) = none) :
    (c.cleanup P i diskID g).1 = none ∧
      (c.cleanup P i diskID g).2.countP Event.isDelete = 1 ∧
      (c.cleanup P i diskID g).2.countP Event.isDstDescribe = 1 := by
  unfold multiZoneClient.dstReports at hd
  unfold multiZoneClient.cleanup
  rw [if_pos hg]
  generalize (g + 2 ^ 64 - 1) % 2 ^ 64 = gen at hdel ⊢
  cases hs : c.dstDescribeVolume i diskID with
  | error err => rw [hs] at hd; simp at hd
  | ok v =>
    rw [hs] at hd
    simp only [beq_iff_eq] at hd
    simp [hd, hdel, List.countP_cons, Event.isDelete, Event.isDstDescribe]

/-- A cleanup whose describe reports a finished fill returns the non-retriable error
out of `Clone`, after the describe alone. -/
theorem cleanup_finished (P : Package) (c : multiZoneClient) (diskID : String) (g i : Nat)
    (hg : 1 < g) (hd : c.dstReports diskID i true = true) :
    c.cleanup P i diskID g =
      (some (NewNonRetriableErrorf "can't replace disk %v because filling is finished"
        [FormatArg.str diskID]), [Event.dstDescribeVolume diskID]) := by
  unfold multiZoneClient.dstReports at hd
  unfold multiZoneClient.cleanup
  rw [if_pos hg]
  cases hs : c.dstDescribeVolume i diskID with
  | error err => rw [hs] at hd; simp at hd
  | ok v =>
    rw [hs] at hd
    simp only [beq_iff_eq] at hd
    simp [hd]

/-- A run whose next `k` attempts come back aborted and are cleaned up goes on, after
the events `pre` of those rounds, as the loop entered `k` rounds later: `pre` holds
`k` attempts, `k` destination describes, `k` deletes, and one create for each of
these rounds whose source describe succeeded. -/
theorem CloneLoop_after_aborts (P : Package) (c : multiZoneClient) (diskID : String)
    (g : Nat) (hg : 1 < g) :
    ∀ k retries, retries + k ≤ P.maxConsecutiveRetries →
      (∀ i, retries ≤ i → i < retries + k → c.attemptAborts P diskID g i = true) →
      (∀ i, retries ≤ i → i < retries + k → c.dstReports diskID i false = true) →
      (∀ i, retries ≤ i → i < retries + k →
        c.dstDeleteWithFillGeneration i diskID ((g + 2 ^ 64 - 1) % 2 ^ 64) = none) →
      ∃ pre, pre.countP Event.isAttempt = k ∧ pre.countP Event.isDelete = k ∧
        pre.countP Event.isDstDescribe = k ∧
        pre.countP Event.isCreate =
          (List.range' retries k).countP (fun i => c.srcDescribes diskID i) ∧
        ∀ fuel, c.CloneLoop P diskID g (k + fuel) retries =
          (c.CloneLoop P diskID g fuel (retries + k)).map (fun r => (r.1, pre ++ r.2)) := by
  intro k
  induction k with
  | zero =>
    intro retries _ _ _ _
    refine ⟨[], rfl, rfl, rfl, rfl, ?_⟩
    intro fuel
    simp
  | succ k ih =>
    intro retries hle hab hdesc hdel
    obtain ⟨err, h1, h2⟩ := clone_of_attemptAborts P c diskID g retries
      (hab retries (Nat.le_refl _) (by omega))
    obtain ⟨h3, b3, b4⟩ := cleanup_passes P c diskID g retries hg
      (hdesc retries (Nat.le_refl _) (by omega)) (hdel retries (Nat.le_refl _) (by omega))
    have hne : retries ≠ P.maxConsecutiveRetries := by omega
    obtain ⟨pre, c1, c3, c4, c2, hrun⟩ := ih (retries + 1) (by omega)
      (fun i h1 h2 => hab i (by omega) (by omega))
      (fun i h1 h2 => hdesc i (by omega) (by omega))
      (fun i h1 h2 => hdel i (by omega) (by omega))
    obtain ⟨a1, _, a3, a4⟩ := clone_counts P c retries diskID g
    have a2 := clone_creates P c diskID g retries
    obtain ⟨b1, b2, _, _⟩ := cleanup_counts P c retries diskID g
    refine ⟨(c.clone P retries diskID g).2 ++ Event.cloneReturned (some err) ::
      ((c.cleanup P retries diskID g).2 ++ pre), ?_, ?_, ?_, ?_, ?_⟩
    · simp only [List.countP_append, List.countP_cons, Event.isAttempt, a1, b1, c1]
      simp
    · simp only [List.countP_append, List.countP_cons, Event.isDelete, a3, b3, c3]
      simp
      omega
    · simp only [List.countP_append, List.countP_cons, Event.isDstDescribe, a4, b4, c4]
      simp
      omega
    · rw [List.range'_succ, List.countP_cons]
      simp only [List.countP_append, List.countP_cons, Event.isCreate, a2, b2, c2]
      simp
      omega
    · intro fuel
      have e : k + 1 + fuel = (k + fuel) + 1 := by omega
      have e2 : retries + (k + 1) = retries + 1 + k := by omega
      rw [e, CloneLoop_succ, e2]
      simp only [h1, h2, h3, if_neg hne, hrun fuel, Option.map_map, Bool.true_eq_false,
        if_false]
      congr 1
      funext r
      simp [List.append_assoc]

/-- The creates counted over rounds `0` to `k` number `k + 1` when every source
describe of the rounds before `k` succeeded and so did that of round `k`. -/
theorem countP_described_all (c : multiZoneClient) (diskID : String) (k : Nat)
    (hlast : c.srcDescribes diskID k = true)
    (h : ∀ i, i < k → c.srcDescribes diskID i = true) :
    (List.range (k + 1)).countP (fun i => c.srcDescribes diskID i) = k + 1 := by
  have hall : ∀ i ∈ List.range (k + 1), (fun i => c.srcDescribes diskID i) i = true := by
    intro i hi
    rw [List.mem_range] at hi
    by_cases hik : i < k
    · exact h i hik
    · have : i = k := by omega
      rw [this]; exact hlast
  rw [List.countP_eq_length.mpr hall, List.length_range]

/-- C5, as the code has it: with fill generation `g > 1`, if the first
`k ≤ maxConsecutiveRetries - 1` clone attempts come back aborted, each destination
describe reports an unfinished fill, each delete (issued with the previous
generation) succeeds, and attempt `k + 1` succeeds, then `Clone` returns success
after exactly `k + 1` clone attempts, `k` destination describes and `k` destination
deletes, with one destination create for each attempt whose source describe
succeeded: `k + 1` creates when no attempt aborted at the source describe. -/
theorem Clone_succeeds_after_cleaned_aborts (P : Package) (c : multiZoneClient)
    (diskID : String) (g k : Nat) (hg : 1 < g) (hk : k ≤ P.maxConsecutiveRetries - 1)
    (habort : ∀ i, i < k → c.attemptAborts P diskID g i = true)
    (hdescribe : ∀ i, i < k → c.dstReports diskID i false = true)
    (hdelete : ∀ i, i < k →
      c.dstDeleteWithFillGeneration i diskID ((g + 2 ^ 64 - 1) % 2 ^ 64) = none)
    (hsuccess : (c.clone P k diskID g).1 = none) :
    ∃ t, c.Clone P diskID g = some (none, t) ∧
      t.countP Event.isAttempt = k + 1 ∧
      t.countP Event.isDstDescribe = k ∧ t.countP Event.isDelete = k ∧
      t.countP Event.isCreate =
        (List.range (k + 1)).countP (fun i => c.srcDescribes diskID i) ∧
      ((∀ i, i < k → c.srcDescribes diskID i = true) → t.countP Event.isCreate = k + 1) := by
  obtain ⟨pre, c1, c3, c4, c2, hrun⟩ := CloneLoop_after_aborts P c diskID g hg k 0 (by omega)
    (fun i _ h => habort i (by omega)) (fun i _ h => hdescribe i (by omega))
    (fun i _ h => hdelete i (by omega))
  have hsrc := clone_success_described P c diskID g k hsuccess
  obtain ⟨a1, _, a3, a4⟩ := clone_counts P c k diskID g
  have a2 := clone_creates P c diskID g k
  rw [if_pos hsrc] at a2
  have hcreate : (pre ++ ((c.clone P k diskID g).2 ++ [Event.cloneReturned none])).countP
      Event.isCreate = (List.range (k + 1)).countP (fun i => c.srcDescribes diskID i) := by
    rw [List.range_succ, List.range_eq_range']
    simp only [List.countP_append, List.countP_cons, List.countP_nil, Event.isCreate, a2, c2,
      hsrc]
    simp
  refine ⟨pre ++ ((c.clone P k diskID g).2 ++ [Event.cloneReturned none]), ?_, ?_, ?_, ?_,
    hcreate, ?_⟩
  · unfold multiZoneClient.Clone
    have e : P.maxConsecutiveRetries + 1 = k + ((P.maxConsecutiveRetries - k) + 1) := by omega
    rw [e, hrun, Nat.zero_add, CloneLoop_succ]
    simp only [hsuccess, Option.map_some']
  · simp only [List.countP_append, List.countP_cons, List.countP_nil, Event.isAttempt, a1, c1]
    simp
  · simp only [List.countP_append, List.countP_cons, List.countP_nil, Event.isDstDescribe,
      a4, c4]
    simp
  · simp only [List.countP_append, List.countP_cons, List.countP_nil, Event.isDelete, a3, c3]
    simp
  · intro hall
    rw [hcreate]
    exact countP_described_all c diskID k hsrc hall

/-- Witness for C5 as the code has it: against a destination that enforces the
expected generation, one abort at the create call with generation 3, then success:
two attempts, one destination describe, one delete, two creates. -/
theorem Clone_succeeds_after_cleaned_aborts_witness :
    ∃ t, (fencedZones 0 1 9).Clone samplePackage "d1" 3 = some (none, t) ∧
      t.countP Event.isAttempt = 1 + 1 ∧
      t.countP Event.isDstDescribe = 1 ∧ t.countP Event.isDelete = 1 ∧
      t.countP Event.isCreate =
        (List.range (1 + 1)).countP (fun i => (fencedZones 0 1 9).srcDescribes "d1" i) ∧
      ((∀ i, i < 1 → (fencedZones 0 1 9).srcDescribes "d1" i = true) →
        t.countP Event.isCreate = 1 + 1) :=
  Clone_succeeds_after_cleaned_aborts samplePackage (fencedZones 0 1 9) "d1" 3 1
    (by decide) (by decide) (by decide) (by decide) (by decide) (by decide)

/-- C5 as stated fails: with a ceiling of three retries and generation 3, the first
clone attempt aborts at the source describe, the destination describe reports an
unfinished fill, the delete succeeds and the second attempt succeeds; `Clone`
returns success after two clone attempts and one delete, but with one create, not
two. -/
theorem Clone_abort_at_source_makes_no_create :
    (1 < 3 ∧ 1 ≤ samplePackage.maxConsecutiveRetries - 1) ∧
      (fencedZones 1 0 9).attemptAborts samplePackage "d1" 3 0 = true ∧
      (fencedZones 1 0 9).dstReports "d1" 0 false = true ∧
      (fencedZones 1 0 9).dstDeleteWithFillGeneration 0 "d1" 2 = none ∧
      ((fencedZones 1 0 9).clone samplePackage 1 "d1" 3).1 = none ∧
      ((fencedZones 1 0 9).Clone samplePackage "d1" 3).map
          (fun r => (r.1, r.2.countP Event.isAttempt, r.2.countP Event.isCreate,
            r.2.countP Event.isDelete)) = some (none, 2, 1, 1) := by
  decide

/-- C2, as the code has it: with fill generation `g > 1`, if attempt `k + 1` of a
`Clone` call (after `k` attempts that came back aborted and were cleaned up) fails
with an error of the aborted class and the destination describe that follows reports
`IsFillFinished = true`, then `Clone` returns the non-retriable error "can't replace
disk ... because filling is finished" with that describe as its last call: no delete
is issued in that round, and the deletes of the call are the `k` of the earlier
rounds, none when the attempt is the first. -/
theorem Clone_refuses_finished_destination (P : Package) (c : multiZoneClient)
    (diskID : String) (g k : Nat) (hg : 1 < g) (hk : k ≤ P.maxConsecutiveRetries)
    (hearlier : ∀ i, i < k → c.attemptAborts P diskID g i = true)
    (hdescribe : ∀ i, i < k → c.dstReports diskID i false = true)
    (hdelete : ∀ i, i < k →
      c.dstDeleteWithFillGeneration i diskID ((g + 2 ^ 64 - 1) % 2 ^ 64) = none)
    (habort : c.attemptAborts P diskID g k = true)
    (hfinished : c.dstReports diskID k true = true) :
    ∃ t, c.Clone P diskID g =
        some (some (NewNonRetriableErrorf "can't replace disk %v because filling is finished"
          [FormatArg.str diskID]), t) ∧
      (NewNonRetriableErrorf "can't replace disk %v because filling is finished"
          [FormatArg.str diskID]).isNonRetriable = true ∧
      t.getLast? = some (Event.dstDescribeVolume diskID) ∧
      t.countP Event.isDelete = k ∧ t.countP Event.isAttempt = k + 1 ∧
      t.countP Event.isDstDescribe = k + 1 := by
  obtain ⟨pre, c1, c3, c4, _, hrun⟩ := CloneLoop_after_aborts P c diskID g hg k 0 (by omega)
    (fun i _ h => hearlier i (by omega)) (fun i _ h => hdescribe i (by omega))
    (fun i _ h => hdelete i (by omega))
  obtain ⟨err, h1, h2⟩ := clone_of_attemptAborts P c diskID g k habort
  have hcl := cleanup_finished P c diskID g k hg hfinished
  obtain ⟨a1, _, a3, a4⟩ := clone_counts P c k diskID g
  refine ⟨pre ++ ((c.clone P k diskID g).2 ++
    [Event.cloneReturned (some err), Event.dstDescribeVolume diskID]), ?_, rfl, ?_, ?_, ?_, ?_⟩
  · unfold multiZoneClient.Clone
    have e : P.maxConsecutiveRetries + 1 = k + ((P.maxConsecutiveRetries - k) + 1) := by omega
    rw [e, hrun, Nat.zero_add, CloneLoop_succ]
    simp only [h1, h2, hcl, Option.map_some']
    simp
  · have e : pre ++ ((c.clone P k diskID g).2 ++
        [Event.cloneReturned (some err), Event.dstDescribeVolume diskID]) =
        (pre ++ ((c.clone P k diskID g).2 ++ [Event.cloneReturned (some err)])) ++
          [Event.dstDescribeVolume diskID] := by simp
    rw [e, List.getLast?_append]
    simp
  · simp only [List.countP_append, List.countP_cons, List.countP_nil, Event.isDelete, a3, c3]
    simp
  · simp only [List.countP_append, List.countP_cons, List.countP_nil, Event.isAttempt, a1, c1]
    simp
  · simp only [List.countP_append, List.countP_cons, List.countP_nil, Event.isDstDescribe,
      a4, c4]
    simp

/-- Witness for C2 as the code has it: with generation 3 the second attempt aborts on
a destination that by then reports a finished fill, after one cleaned-up abort: the
non-retriable error, one delete, two attempts, two destination describes. -/
theorem Clone_refuses_finished_destination_witness :
    ∃ t, (fencedZones 0 9 1).Clone samplePackage "d1" 3 =
        some (some (NewNonRetriableErrorf "can't replace disk %v because filling is finished"
          [FormatArg.str "d1"]), t) ∧
      (NewNonRetriableErrorf "can't replace disk %v because filling is finished"
          [FormatArg.str "d1"]).isNonRetriable = true ∧
      t.getLast? = some (Event.dstDescribeVolume "d1") ∧
      t.countP Event.isDelete = 1 ∧ t.countP Event.isAttempt = 1 + 1 ∧
      t.countP Event.isDstDescribe = 1 + 1 :=
  Clone_refuses_finished_destination samplePackage (fencedZones 0 9 1) "d1" 3 1
    (by decide) (by decide) (by decide) (by decide) (by decide) (by decide) (by decide)

/-- C2 as stated fails: with generation 3, the second clone attempt of the call fails
with an aborted error and the destination describe that follows reports a finished
fill; `Clone` returns the non-retriable error, but the cleanup of the first attempt
has already issued one destination delete. -/
theorem Clone_finished_after_a_delete :
    1 < 3 ∧
      (fencedZones 0 9 1).attemptAborts samplePackage "d1" 3 1 = true ∧
      (fencedZones 0 9 1).dstReports "d1" 1 true = true ∧
      ((fencedZones 0 9 1).Clone samplePackage "d1" 3).map
          (fun r => (r.1, r.2.countP Event.isDelete)) =
        some (some (NewNonRetriableErrorf "can't replace disk %v because filling is finished"
          [FormatArg.str "d1"]), 1) ∧
      ((fencedZones 0 9 1).Clone samplePackage "d1" 3).map
          (fun r => r.2.countP Event.isDelete) ≠ some 0 := by
  decide

/-- A cleanup falls through when the generation is at most 1, or when its describe
reports an unfinished fill and its delete, issued with the previous generation,
succeeds. -/
theorem cleanup_falls_through (P : Package) (c : multiZoneClient) (diskID : String)
    (g i : Nat)
    (h : 1 < g → c.dstReports diskID i false = true ∧
      c.dstDeleteWithFillGeneration i diskID ((g + 2 ^ 64 - 1) % 2 ^ 64) = none) :
    (c.cleanup P i diskID g).1 = none := by
  by_cases hg : 1 < g
  · exact (cleanup_passes P c diskID g i hg (h hg).1 (h hg).2).1
  · unfold multiZoneClient.cleanup
    rw [if_neg (by omega)]

/-- A run in which every attempt up to the retry ceiling aborts and every cleanup
falls through. -/
theorem CloneLoop_exhausts (P : Package) (c : multiZoneClient) (diskID : String)
    (g : Nat) :
    ∀ n retries extra, retries + n = P.maxConsecutiveRetries →
      (∀ i, retries ≤ i → i ≤ P.maxConsecutiveRetries →
        ∃ e, (c.clone P i diskID g).1 = some e ∧ P.isAbortedError e = true) →
      (∀ i, retries ≤ i → i ≤ P.maxConsecutiveRetries →
        (c.cleanup P i diskID g).1 = none) →
      ∃ e t, (c.clone P P.maxConsecutiveRetries diskID g).1 = some e ∧
        c.CloneLoop P diskID g (n + 1 + extra) retries =
          some (some (NewRetriableError e), t) ∧
        t.countP Event.isAttempt = n + 1 := by
  intro n
  induction n with
  | zero =>
    intro retries extra hmax hab hcl
    have hr : retries = P.maxConsecutiveRetries := by omega
    obtain ⟨e, h1, h2⟩ := hab retries (Nat.le_refl _) (by omega)
    have h3 := hcl retries (Nat.le_refl _) (by omega)
    have e1 : 0 + 1 + extra = extra + 1 := by omega
    rw [e1, CloneLoop_succ]
    simp only [h1, h2, h3, if_pos hr]
    refine ⟨e, _, by rw [← hr]; exact h1, rfl, ?_⟩
    obtain ⟨a1, _, _, _⟩ := clone_counts P c retries diskID g
    obtain ⟨b1, _, _, _⟩ := cleanup_counts P c retries diskID g
    simp [List.countP_append, List.countP_cons, Event.isAttempt, a1, b1]
  | succ n ih =>
    intro retries extra hmax hab hcl
    have hne : retries ≠ P.maxConsecutiveRetries := by omega
    obtain ⟨e, h1, h2⟩ := hab retries (Nat.le_refl _) (by omega)
    have h3 := hcl retries (Nat.le_refl _) (by omega)
    obtain ⟨e', t, hlast, ht, hc⟩ := ih (retries + 1) extra (by omega)
      (fun i h1 h2 => hab i (by omega) h2) (fun i h1 h2 => hcl i (by omega) h2)
    have e1 : n + 1 + 1 + extra = (n + 1 + extra) + 1 := by omega
    rw [e1, CloneLoop_succ]
    simp only [h1, h2, h3, if_neg hne, ht, Option.map_some']
    refine ⟨e', _, hlast, rfl, ?_⟩
    obtain ⟨a1, _, _, _⟩ := clone_counts P c retries diskID g
    obtain ⟨b1, _, _, _⟩ := cleanup_counts P c retries diskID g
    simp [List.countP_append, List.countP_cons, Event.isAttempt, a1, b1, hc]

/-- C1, as the code has it: if `maxConsecutiveRetries + 1` consecutive clone attempts
(rounds `0` to `maxConsecutiveRetries`) fail with an error of the aborted class, and
every cleanup done succeeds (its describe reports a fill that is not finished, its
delete, issued with the previous generation, succeeds), then
`Clone` returns a retriable error that wraps the error of the last attempt, after
`maxConsecutiveRetries + 1` attempts. -/
theorem Clone_retriable_after_ceiling (P : Package) (c : multiZoneClient)
    (diskID : String) (g : Nat)
    (habort : ∀ i, i ≤ P.maxConsecutiveRetries →
      ∃ e, (c.clone P i diskID g).1 = some e ∧ P.isAbortedError e = true)
    (hcleanup : ∀ i, i ≤ P.maxConsecutiveRetries → 1 < g →
      c.dstReports diskID i false = true ∧
        c.dstDeleteWithFillGeneration i diskID ((g + 2 ^ 64 - 1) % 2 ^ 64) = none) :
    ∃ e t, (c.clone P P.maxConsecutiveRetries diskID g).1 = some e ∧
      c.Clone P diskID g = some (some (NewRetriableError e), t) ∧
      (NewRetriableError e).isRetriable = true ∧
      t.countP Event.isAttempt = P.maxConsecutiveRetries + 1 := by
  obtain ⟨e, t, h1, h2, h3⟩ := CloneLoop_exhausts P c diskID g P.maxConsecutiveRetries 0 0
    (Nat.zero_add _) (fun i _ h => habort i h)
    (fun i _ h => cleanup_falls_through P c diskID g i (hcleanup i h))
  exact ⟨e, t, h1, h2, rfl, h3⟩

/-- Witness for C1 as the code has it: four aborts in a row with a ceiling of three
retries, against a destination that enforces the expected generation. -/
theorem Clone_retriable_after_ceiling_witness :
    ∃ e t, ((fencedZones 0 4 9).clone samplePackage samplePackage.maxConsecutiveRetries
        "d1" 3).1 = some e ∧
      (fencedZones 0 4 9).Clone samplePackage "d1" 3 =
        some (some (NewRetriableError e), t) ∧
      (NewRetriableError e).isRetriable = true ∧
      t.countP Event.isAttempt = samplePackage.maxConsecutiveRetries + 1 :=
  Clone_retriable_after_ceiling samplePackage (fencedZones 0 4 9) "d1" 3
    (fun i hi => ⟨Error.client 1 "aborted",
      by
        have hlt : i < 4 := Nat.lt_succ_of_le hi
        simp [multiZoneClient.clone, fencedZones, samplePackage, hlt],
      by decide⟩)
    (fun i hi _ => ⟨by
        have hlt : ¬ 9 ≤ i := Nat.not_le_of_lt (Nat.lt_of_le_of_lt hi (by decide))
        simp [multiZoneClient.dstReports, fencedZones, sampleVolume, hlt],
      rfl⟩)

/-- C1 as stated fails: with a ceiling of three retries, exactly three consecutive
clone attempts abort (each cleanup succeeding on an unfinished destination), the
fourth attempt succeeds, and `Clone` returns success, not a retriable error. -/
theorem Clone_ceiling_aborts_then_success :
    samplePackage.maxConsecutiveRetries = 3 ∧
      (∀ i, i < 3 → ((sampleZones 3 false).clone samplePackage i "d1" 3).1 =
        some (Error.client 1 "aborted")) ∧
      samplePackage.isAbortedError (Error.client 1 "aborted") = true ∧
      (∀ i, i < 3 → (sampleZones 3 false).dstReports "d1" i false = true ∧
        (sampleZones 3 false).dstDeleteWithFillGeneration i "d1" 2 = none) ∧
      ((sampleZones 3 false).clone samplePackage 3 "d1" 3).1 = none ∧
      ((sampleZones 3 false).Clone samplePackage "d1" 3).map Prod.fst = some none ∧
      ¬ ∃ e t, (sampleZones 3 false).Clone samplePackage "d1" 3 =
        some (some (NewRetriableError e), t) := by
  refine ⟨rfl, by decide, by decide, by decide, by decide, by decide, ?_⟩
  rintro ⟨e, t, h⟩
  have h2 : ((sampleZones 3 false).Clone samplePackage "d1" 3).map Prod.fst = some none := by
    decide
  rw [h] at h2
  simp at h2

/-! ## The claims about waiting for operations -/

/-- C7, as the code has it: when the client's wait returns a terminal snapshot whose
result is the error variant with a status of code other than OK (0), `WaitResponse`
and `WaitOperation` return the status error with exactly that code and message. -/
theorem WaitResponse_error_variant (M : Type)
    (UnmarshalAny : Option Any → M → Option Error × M) (client : WaitableClient)
    (operationID : String) (response : Option M) (o : Operation) (s : Status)
    (hwait : client.WaitOperation operationID (fun _ _ => none) = Except.ok o)
    (hdone : o.Done = true)
    (hresult : o.Result = some (OperationResult.Operation_Error (some s)))
    (hcode : s.Code ≠ 0) :
    (WaitResponse M UnmarshalAny client operationID response).1 =
        some (Error.status s.Code s.Message) ∧
      WaitOperation client operationID = some (Error.status s.Code s.Message) := by
  unfold WaitOperation WaitResponse
  simp [hwait, hdone, hresult, ErrorProto, hcode]

/-- Witness for C7 as the code has it: a terminal snapshot failed with code 5. -/
theorem WaitResponse_error_variant_witness :
    (WaitResponse String sampleUnmarshalAny
        (sampleWaitable ⟨"op", true, some (OperationResult.Operation_Error (some ⟨5, "no disk"⟩))⟩)
        "op" (some "t")).1 = some (Error.status 5 "no disk") ∧
      WaitOperation
        (sampleWaitable ⟨"op", true, some (OperationResult.Operation_Error (some ⟨5, "no disk"⟩))⟩)
        "op" = some (Error.status 5 "no disk") :=
  WaitResponse_error_variant String sampleUnmarshalAny
    (sampleWaitable ⟨"op", true, some (OperationResult.Operation_Error (some ⟨5, "no disk"⟩))⟩)
    "op" (some "t") ⟨"op", true, some (OperationResult.Operation_Error (some ⟨5, "no disk"⟩))⟩
    ⟨5, "no disk"⟩ rfl rfl rfl (by decide)

/-- C7 as stated fails: for a terminal snapshot whose error variant carries code 0
(OK) and the message "boom", `WaitResponse` and `WaitOperation` return no error at
all. -/
theorem WaitResponse_error_variant_code_ok :
    (WaitResponse String sampleUnmarshalAny
        (sampleWaitable ⟨"op", true, some (OperationResult.Operation_Error (some ⟨0, "boom"⟩))⟩)
        "op" (some "t")).1 = none ∧
      WaitOperation
        (sampleWaitable ⟨"op", true, some (OperationResult.Operation_Error (some ⟨0, "boom"⟩))⟩)
        "op" = none := by
  constructor <;> rfl

/-- C8, as the code has it: when the client's wait returns a terminal snapshot with a
response payload and the decode target is not nil, a failure to decode the payload
into the target makes `WaitResponse` return the decode error itself, unchanged. -/
theorem WaitResponse_decode_failure (M : Type)
    (UnmarshalAny : Option Any → M → Option Error × M) (client : WaitableClient)
    (operationID : String) (target : M) (o : Operation) (payload : Option Any) (e : Error)
    (hwait : client.WaitOperation operationID (fun _ _ => none) = Except.ok o)
    (hdone : o.Done = true)
    (hresult : o.Result = some (OperationResult.Operation_Response payload))
    (hdecode : (UnmarshalAny payload target).1 = some e) :
    (WaitResponse M UnmarshalAny client operationID (some target)).1 = some e := by
  unfold WaitResponse
  simp [hwait, hdone, hresult, hdecode]

/-- Witness for C8 as the code has it: a payload of type `a` decoded into a target
of type `b`. -/
theorem WaitResponse_decode_failure_witness :
    (WaitResponse String sampleUnmarshalAny
        (sampleWaitable
          ⟨"op", true, some (OperationResult.Operation_Response (some ⟨"a", []⟩))⟩)
        "op" (some "b")).1 =
      some (Error.errorf "mismatched message type: got %q want %q"
        [FormatArg.str "a", FormatArg.str "b"]) :=
  WaitResponse_decode_failure String sampleUnmarshalAny
    (sampleWaitable ⟨"op", true, some (OperationResult.Operation_Response (some ⟨"a", []⟩))⟩)
    "op" "b" ⟨"op", true, some (OperationResult.Operation_Response (some ⟨"a", []⟩))⟩
    (some ⟨"a", []⟩) _ rfl rfl rfl (by decide)

/-- C8 as stated fails: the payload of a terminal snapshot has type `a`, the target
has type `b`, decoding fails, and the error `WaitResponse` returns is the decoder's
own, which is not of the non-retriable class. -/
theorem WaitResponse_decode_failure_not_wrapped :
    (sampleUnmarshalAny (some ⟨"a", []⟩) "b").1 ≠ none ∧
      ∃ e, (WaitResponse String sampleUnmarshalAny
          (sampleWaitable
            ⟨"op", true, some (OperationResult.Operation_Response (some ⟨"a", []⟩))⟩)
          "op" (some "b")).1 = some e ∧ e.isNonRetriable = false := by
  refine ⟨by decide, Error.errorf "mismatched message type: got %q want %q"
    [FormatArg.str "a", FormatArg.str "b"], by decide, rfl⟩

/-- One poll of the wait loop, spelled out. -/
theorem WaitOperation_succ (c : privateClient) (operationID : String)
    (callback : Option Callback) (fuel n : Nat) :
    c.WaitOperation operationID callback (fuel + 1) n =
      match c.Get n operationID with
      | Except.error err => (some (Except.error err), [Except.error err])
      | Except.ok o =>
        match callback.bind (fun cb => cb n o) with
        | some err => (some (Except.error err), [Except.ok o])
        | none =>
          if o.Done then (some (Except.ok o), [Except.ok o])
          else
            match c.ctxDone n with
            | some err => (some (Except.error err), [Except.ok o])
            | none =>
              ((c.WaitOperation operationID callback fuel (n + 1)).1,
                Except.ok o :: (c.WaitOperation operationID callback fuel (n + 1)).2) := rfl

/-- A wait entered at poll `n` that returned: it fetched at least once, the replies
it lists are those of polls `n`, `n + 1`, ..., every snapshot before the last was not
terminal, and it left after its last poll through one of the exits of `WaitExit`. -/
theorem WaitOperation_returned (c : privateClient) (operationID : String)
    (callback : Option Callback) :
    ∀ fuel n res trace,
      c.WaitOperation operationID callback fuel n = (some res, trace) →
      1 ≤ trace.length ∧
        trace.getLast? = some (c.Get (n + trace.length - 1) operationID) ∧
        (∀ j, j + 1 < trace.length →
          ∃ o, c.Get (n + j) operationID = Except.ok o ∧ o.Done = false) ∧
        WaitExit c operationID callback (n + trace.length - 1) res := by
  intro fuel
  induction fuel with
  | zero => intro n res trace h; simp [privateClient.WaitOperation] at h
  | succ fuel ih =>
    intro n res trace h
    rw [WaitOperation_succ] at h
    cases hget : c.Get n operationID with
    | error err =>
      simp only [hget, Prod.mk.injEq, Option.some.injEq] at h
      obtain ⟨h1, h2⟩ := h
      subst h1 h2
      refine ⟨by simp, by simp [hget], by simp, ?_⟩
      simpa using WaitExit.fetchError err hget
    | ok o =>
      simp only [hget] at h
      cases hcb : callback.bind (fun cb => cb n o) with
      | some err =>
        simp only [hcb, Prod.mk.injEq, Option.some.injEq] at h
        obtain ⟨h1, h2⟩ := h
        subst h1 h2
        refine ⟨by simp, by simp [hget], by simp, ?_⟩
        simpa using WaitExit.observerError o err hget hcb
      | none =>
        simp only [hcb] at h
        cases hdone : o.Done with
        | true =>
          simp only [hdone, if_true, Prod.mk.injEq, Option.some.injEq] at h
          obtain ⟨h1, h2⟩ := h
          subst h1 h2
          refine ⟨by simp, by simp [hget], by simp, ?_⟩
          simpa using WaitExit.done o hget hcb hdone
        | false =>
          simp only [hdone, Bool.false_eq_true, if_false] at h
          cases hctx : c.ctxDone n with
          | some err =>
            simp only [hctx, Prod.mk.injEq, Option.some.injEq] at h
            obtain ⟨h1, h2⟩ := h
            subst h1 h2
            refine ⟨by simp, by simp [hget], by simp, ?_⟩
            simpa using WaitExit.cancelled o err hget hcb hdone hctx
          | none =>
            simp only [hctx, Prod.mk.injEq] at h
            obtain ⟨h1, h2⟩ := h
            obtain ⟨i1, i2, i3, i4⟩ := ih (n + 1) res
              (c.WaitOperation operationID callback fuel (n + 1)).2
              (by rw [← h1])
            subst h2
            have hne : (c.WaitOperation operationID callback fuel (n + 1)).2 ≠ [] := by
              intro hnil
              rw [hnil] at i1
              simp at i1
            have e : n + (Except.ok o ::
                (c.WaitOperation operationID callback fuel (n + 1)).2).length - 1 =
                n + 1 + (c.WaitOperation operationID callback fuel (n + 1)).2.length - 1 := by
              simp only [List.length_cons]
              omega
            refine ⟨by simp, ?_, ?_, ?_⟩
            · rw [e, ← i2]
              obtain ⟨a, l, hl⟩ := List.exists_cons_of_ne_nil hne
              rw [hl]
              simp
            · intro j hj
              cases j with
              | zero => exact ⟨o, by simpa using hget, hdone⟩
              | succ j =>
                simp only [List.length_cons] at hj
                obtain ⟨o', ho', hd'⟩ := i3 j (by omega)
                refine ⟨o', ?_, hd'⟩
                have e2 : n + (j + 1) = n + 1 + j := by omega
                rw [e2]
                exact ho'
            · rw [e]
              exact i4

/-- The wait does return: when poll `n + k` is the first to fetch a terminal snapshot
(the polls before it fetch running snapshots, the observer raises no error, the
context is not done), any fuel of more than `k` polls makes the wait entered at poll
`n` return that snapshot after `k + 1` fetches. -/
theorem WaitOperation_reaches_terminal (c : privateClient) (operationID : String)
    (callback : Option Callback) :
    ∀ k n fuel o, k < fuel →
      (∀ j, j < k → ∃ oj, c.Get (n + j) operationID = Except.ok oj ∧
        callback.bind (fun cb => cb (n + j) oj) = none ∧ oj.Done = false ∧
        c.ctxDone (n + j) = none) →
      c.Get (n + k) operationID = Except.ok o →
      callback.bind (fun cb => cb (n + k) o) = none → o.Done = true →
      (c.WaitOperation operationID callback fuel n).1 = some (Except.ok o) ∧
        (c.WaitOperation operationID callback fuel n).2.length = k + 1 := by
  intro k
  induction k with
  | zero =>
    intro n fuel o hf _ hget hcb hdone
    obtain ⟨f, rfl⟩ : ∃ f, fuel = f + 1 := ⟨fuel - 1, by omega⟩
    rw [Nat.add_zero] at hget hcb
    rw [WaitOperation_succ]
    simp [hget, hcb, hdone]
  | succ k ih =>
    intro n fuel o hf hrun hget hcb hdone
    obtain ⟨f, rfl⟩ : ∃ f, fuel = f + 1 := ⟨fuel - 1, by omega⟩
    obtain ⟨o0, g0, cb0, d0, x0⟩ := hrun 0 (by omega)
    rw [Nat.add_zero] at g0 cb0 x0
    have e : n + (k + 1) = n + 1 + k := by omega
    rw [e] at hget hcb
    obtain ⟨r1, r2⟩ := ih (n + 1) f o (by omega)
      (fun j hj => by
        have := hrun (j + 1) (by omega)
        have e2 : n + (j + 1) = n + 1 + j := by omega
        rwa [e2] at this)
      hget hcb hdone
    rw [WaitOperation_succ]
    simp [g0, cb0, d0, x0, r1, r2]

/-- C9, as the code has it: a wait that returned made at least one fetch; every
snapshot it fetched before the last was not terminal; and it returned after its last
fetch on one of four grounds: the snapshot was terminal, the fetch itself failed,
the observer returned an error, or the context was done.  When it returns an
operation, that operation is the last snapshot fetched and has `Done = true`. -/
theorem privateClient_WaitOperation_exits (c : privateClient) (operationID : String)
    (callback : Option Callback) (fuel : Nat) (res : Except Error Operation)
    (trace : List (Except Error Operation))
    (h : c.WaitOperation operationID callback fuel 0 = (some res, trace)) :
    1 ≤ trace.length ∧
      (∀ j, j + 1 < trace.length →
        ∃ o, c.Get j operationID = Except.ok o ∧ o.Done = false) ∧
      WaitExit c operationID callback (trace.length - 1) res ∧
      ∀ o, res = Except.ok o → trace.getLast? = some (Except.ok o) ∧ o.Done = true := by
  obtain ⟨h1, h2, h3, h4⟩ := WaitOperation_returned c operationID callback fuel 0 res trace h
  rw [Nat.zero_add] at h2 h4
  refine ⟨h1, ?_, h4, ?_⟩
  · intro j hj
    have := h3 j hj
    rwa [Nat.zero_add] at this
  · intro o ho
    rw [ho] at h4
    cases h4 with
    | done _ hget hcb hdone => exact ⟨by rw [h2, hget], hdone⟩

/-- Witness for C9 as the code has it: the sample service reports the operation
running, then done; the wait returns the second snapshot after two fetches. -/
theorem privateClient_WaitOperation_exits_witness :
    samplePrivateClient.WaitOperation "op" none 5 0 =
        (some (Except.ok doneOperation),
          [Except.ok runningOperation, Except.ok doneOperation]) ∧
      WaitExit samplePrivateClient "op" none 1 (Except.ok doneOperation) ∧
      doneOperation.Done = true :=
  ⟨rfl,
    (privateClient_WaitOperation_exits samplePrivateClient "op" none 5
      (Except.ok doneOperation) [Except.ok runningOperation, Except.ok doneOperation]
      rfl).2.2.1,
    ((privateClient_WaitOperation_exits samplePrivateClient "op" none 5
      (Except.ok doneOperation) [Except.ok runningOperation, Except.ok doneOperation]
      rfl).2.2.2 doneOperation rfl).2⟩

/-- C9 as stated fails: the operation service is unavailable, there is no observer
and the context is never done; the wait returns the error of its first fetch, having
observed no snapshot at all, terminal or not. -/
theorem privateClient_WaitOperation_fetch_error :
    (∀ fuel, unavailablePrivateClient.WaitOperation "op" none (fuel + 1) 0 =
        (some (Except.error (Error.status 14 "unavailable")),
          [Except.error (Error.status 14 "unavailable")])) ∧
      (∀ n, unavailablePrivateClient.ctxDone n = none) ∧
      (∀ n o, unavailablePrivateClient.Get n "op" ≠ Except.ok o) := by
  refine ⟨fun _ => rfl, fun _ => rfl, ?_⟩
  intro n o h
  simp [unavailablePrivateClient] at h

end DiskManager
